import Mathlib

/-!
Shallow embedding of the Beer-Lambert calibration and sample-evaluation
engine of app.py (a single Streamlit script).  Numeric text fields are
modelled as Option Rat (none for a string that float() rejects); float
arithmetic is modelled exactly over Rat, and the transcendental Horwitz
formula over Real.  Presentation-only code (layout, plotting, message
strings) is out of scope; the message tiers are modelled as enums.
-/

namespace Kalku

/-- A raw standard-table row: two text cells, each either a parsed number
or a parse failure.  Lines 27-33 of app.py wrap both float() calls in a
single try, so a row survives exactly when both cells parse. -/
abbrev RawStd := Option ℚ × Option ℚ

/-- Rows surviving the parsing loop, in order (std_data, app.py 26-33). -/
def parsedPairs (entries : List RawStd) : List (ℚ × ℚ) :=
  entries.filterMap fun p => p.1.bind fun c => p.2.map fun a => (c, a)

/-- Arithmetic mean (np.mean); total division on Rat makes the empty
case 0, which is never hit on the guarded paths. -/
def listMean (l : List ℚ) : ℚ := l.sum / l.length

/-- Mean of the concentration column. -/
def xbar (ps : List (ℚ × ℚ)) : ℚ := listMean (ps.map Prod.fst)

/-- Mean of the absorbance column. -/
def ybar (ps : List (ℚ × ℚ)) : ℚ := listMean (ps.map Prod.snd)

/-- Biased second moment of the concentrations: the ssxm entry of
np.cov(x, y, bias=1) inside scipy.stats.linregress. -/
def ssxm (ps : List (ℚ × ℚ)) : ℚ :=
  (ps.map fun p => (p.1 - xbar ps) ^ 2).sum / ps.length

/-- Biased second moment of the absorbances (ssym of np.cov). -/
def ssym (ps : List (ℚ × ℚ)) : ℚ :=
  (ps.map fun p => (p.2 - ybar ps) ^ 2).sum / ps.length

/-- Biased cross moment (ssxym of np.cov); this is exactly the
population covariance between concentration and absorbance. -/
def ssxym (ps : List (ℚ × ℚ)) : ℚ :=
  (ps.map fun p => (p.1 - xbar ps) * (p.2 - ybar ps)).sum / ps.length

/-- Least-squares slope, as linregress computes it: ssxym / ssxm. -/
def slopeOf (ps : List (ℚ × ℚ)) : ℚ := ssxym ps / ssxm ps

/-- Least-squares intercept: ymean - slope * xmean. -/
def interceptOf (ps : List (ℚ × ℚ)) : ℚ := ybar ps - slopeOf ps * xbar ps

/-- The value of r_value ** 2 (app.py 48) in exact arithmetic.
linregress returns r = 0 when ssxm or ssym is 0, otherwise
ssxym / sqrt(ssxm * ssym) clipped into [-1, 1]; the clip is a no-op in
exact arithmetic (Cauchy-Schwarz, proved below as listCauchySchwarz),
so the square is the rational ssxym^2 / (ssxm * ssym). -/
def rSqOf (ps : List (ℚ × ℚ)) : ℚ :=
  if ssxm ps = 0 ∨ ssym ps = 0 then 0 else ssxym ps ^ 2 / (ssxm ps * ssym ps)

/-- Regression output kept by the script: slope a, intercept b and
r_squared (app.py 47-48).  The real-valued Pearson r itself is modelled
separately as correlation, since it involves a square root. -/
structure CalibrationResult where
  slope : ℚ
  intercept : ℚ
  rSquared : ℚ
deriving DecidableEq

/-- The three terminal fitting failures (each an st.error / st.stop or
st.warning / st.stop in app.py 38-52). -/
inductive FitError
  | insufficientData
  | degenerateConcentrations
  | slopeTooSmall
deriving DecidableEq

/-- The calibration fitter, app.py 26-52: parse rows (dropping the
malformed ones), stop when fewer than num_std rows parsed, stop when
fewer than 2 distinct concentrations remain, run the regression, stop
when the absolute slope is below 1e-6, otherwise succeed. -/
def fit (entries : List RawStd) (numStd : ℕ) : Except FitError CalibrationResult :=
  let ps := parsedPairs entries
  if ps.length < numStd then .error .insufficientData
  else if (ps.map Prod.fst).dedup.length < 2 then .error .degenerateConcentrations
  else if |slopeOf ps| < 1 / 1000000 then .error .slopeTooSmall
  else .ok ⟨slopeOf ps, interceptOf ps, rSqOf ps⟩

/-- Pearson r exactly as scipy.stats.linregress computes it: 0 when ssxm
or ssym vanishes, otherwise ssxym / sqrt(ssxm * ssym) clipped into
[-1, 1]. -/
noncomputable def correlation (ps : List (ℚ × ℚ)) : ℝ :=
  if ssxm ps = 0 ∨ ssym ps = 0 then 0
  else min 1 (max (-1) ((ssxym ps : ℝ) / Real.sqrt ((ssxm ps : ℝ) * (ssym ps : ℝ))))

/-! Sample evaluator, app.py 95-167. -/

/-- Per-sample absorbance: float(text) with a catch-all that substitutes
0.0 on parse failure (app.py 109-112). -/
def parseOrZero (e : Option ℚ) : ℚ := e.getD 0

/-- Inversion with clamp (app.py 114-115): (A - b) / a when a is
nonzero, 0 otherwise, then clamped below at 0 by max(conc_val, 0). -/
def predictConc (cal : CalibrationResult) (A : ℚ) : ℚ :=
  max (if cal.slope ≠ 0 then (A - cal.intercept) / cal.slope else 0) 0

/-- conc_values: one concentration per input sample, parsed or not
(app.py 104-117). -/
def concValues (cal : CalibrationResult) (entries : List (Option ℚ)) : List ℚ :=
  entries.map fun e => predictConc cal (parseOrZero e)

/-- avg_conc_values = np.mean(conc_values) (app.py 119). -/
def avgConc (cal : CalibrationResult) (entries : List (Option ℚ)) : ℚ :=
  listMean (concValues cal entries)

/-- Values a numpy float64 expression of the evaluator can take. -/
inductive NpFloat
  | fin (q : ℚ)
  | posInf
  | negInf
  | nan
deriving DecidableEq

/-- IEEE-754 division as numpy performs it on float64 scalars: division
by (positive) zero yields nan for 0 / 0 and a signed infinity otherwise,
with a RuntimeWarning; it never raises. -/
def npDiv (x y : ℚ) : NpFloat :=
  if y = 0 then (if x = 0 then .nan else if 0 < x then .posInf else .negInf)
  else .fin (x / y)

/-- Multiplication of a float64 value by a finite constant (the * 100 in
app.py 124). -/
def npScale (v : NpFloat) (c : ℚ) : NpFloat :=
  match v with
  | .fin q => .fin (q * c)
  | .nan => .nan
  | .posInf => if 0 < c then .posInf else if c < 0 then .negInf else .nan
  | .negInf => if 0 < c then .negInf else if c < 0 then .posInf else .nan

/-- The one exception the spec expects from the evaluator. -/
inductive PyExc
  | zeroDivisionError
deriving DecidableEq

/-- rpd = selisih / avg_conc_values * 100 (app.py 124).  selisih is a
Python float but avg_conc_values is a numpy.float64 (np.mean returns
one), so the quotient is evaluated with float64 semantics: a zero mean
produces nan or inf silently, never a ZeroDivisionError.  The Except
layer records the possibility of raising; here it is always ok. -/
def rpdOf (conc avg : ℚ) : Except PyExc NpFloat :=
  .ok (npScale (npDiv |conc - avg| avg) 100)

/-- RPD column of the results table, one entry per sample (app.py
122-132). -/
def rpdValues (cal : CalibrationResult) (entries : List (Option ℚ)) :
    List (Except PyExc NpFloat) :=
  (concValues cal entries).map fun c => rpdOf c (avgConc cal entries)

/-- selisih_values: squared absolute deviations from the mean, built as
selisih * selisih with selisih = math.fabs(conc - avg) (app.py 123-125). -/
def selisihSq (cal : CalibrationResult) (entries : List (Option ℚ)) : List ℚ :=
  (concValues cal entries).map fun c =>
    |c - avgConc cal entries| * |c - avgConc cal entries|

/-- The quantity under the square root: np.mean(selisih_values)
(app.py 134). -/
def rsdSqOf (cal : CalibrationResult) (entries : List (Option ℚ)) : ℚ :=
  listMean (selisihSq cal entries)

/-- rsd = math.sqrt(np.mean(selisih_values)) (app.py 134). -/
noncomputable def rsdOf (cal : CalibrationResult) (entries : List (Option ℚ)) : ℝ :=
  Real.sqrt (rsdSqOf cal entries)

/-- The mean of squared deviations from the mean, written the way the
spec words it (arithmetic mean of squared deviations of each value from
the mean). -/
def meanSqDev (l : List ℚ) : ℚ :=
  listMean (l.map fun c => (c - listMean l) ^ 2)

/-- The conventional percent-RSD formula the spec contrasts against:
100 * standard deviation / mean. -/
noncomputable def conventionalRsd (l : List ℚ) : ℝ :=
  100 * Real.sqrt (meanSqDev l) / (listMean l : ℝ)

/-- Round half to even to an integer: the rounding applied when a float
is formatted with three decimals (ties, which the exact rational model
can hit, resolve to even as IEEE formatting does). -/
def roundHalfEven (q : ℚ) : ℤ :=
  if q - ⌊q⌋ = 1 / 2 then (if ⌊q⌋ % 2 = 0 then ⌊q⌋ else ⌊q⌋ + 1) else round q

/-- ppm = float(f-string with .3f): the concentration rounded to three
decimal places by formatting and re-parsing (app.py 129 and 149). -/
def round3 (q : ℚ) : ℚ := (roundHalfEven (q * 1000) : ℚ) / 1000

/-- CV Horwitz formula 2 ** (1 - 0.5 * np.log10(C)) (app.py 152). -/
noncomputable def cvHorwitz (C : ℚ) : ℝ :=
  (2 : ℝ) ^ ((1 : ℝ) - 0.5 * Real.logb 10 (C : ℝ))

/-- CV Horwitz column (app.py 148-160): the concentration is read back
from its 3-decimal rendering, divided by 1e6, and the CV is computed
only when that C_decimal is positive; otherwise the row carries the
np.nan marker, modelled as none. -/
noncomputable def horwitzMarkers (concs : List ℚ) : List (Option ℝ) :=
  concs.map fun c =>
    if 0 < round3 c / 1000000 then some (cvHorwitz (round3 c / 1000000)) else none

/-- horwitz_values: the defined CVs in row order; nan is only ever
assigned, never appended, so the later not-isnan filter (app.py 164) is
the identity on this list. -/
noncomputable def horwitzValues (concs : List ℚ) : List ℝ :=
  (concs.filter fun c => decide (0 < round3 c / 1000000)).map fun c =>
    cvHorwitz (round3 c / 1000000)

/-- Rata-rata CV Horwitz: emitted only when some CV is defined
(app.py 164-167). -/
noncomputable def avgCvHorwitz (concs : List ℚ) : Option ℝ :=
  if (horwitzValues concs).isEmpty then none
  else some ((horwitzValues concs).sum / (horwitzValues concs).length)

/-! Definitions modelled from the words of the spec, used as refinement
targets for the claims that contrast spec and code behaviour. -/

/-- Modelled from the spec (refinement target): on parse failure the
concentration is an unset marker; on success the clamped inversion. -/
def specConcValues (cal : CalibrationResult) (entries : List (Option ℚ)) :
    List (Option ℚ) :=
  entries.map fun e => e.map fun A => max 0 ((A - cal.intercept) / cal.slope)

/-- Modelled from the spec (refinement target): the aggregate mean runs
only over samples with a defined concentration. -/
def specMeanDefined (cal : CalibrationResult) (entries : List (Option ℚ)) : ℚ :=
  listMean ((specConcValues cal entries).filterMap id)

/-- Modelled from the spec (refinement target): the RPD computation
fails with DivideByZero when the mean is 0, otherwise returns the
quotient abs deviation / mean * 100. -/
def specRpd (conc avg : ℚ) : Except PyExc ℚ :=
  if avg = 0 then .error .zeroDivisionError else .ok (|conc - avg| / avg * 100)

/-! Qualitative interpretation tiers, app.py 76-93.  The displayed
message strings are presentation; the chosen branch is the model. -/

/-- Slope message tier. -/
inductive SlopeReading
  | expectedPositive
  | anomalous
deriving DecidableEq

/-- Intercept message tier. -/
inductive InterceptReading
  | nearZero
  | possibleSystematicError
deriving DecidableEq

/-- Correlation message tier. -/
inductive CorrReading
  | excellent
  | acceptable
  | poor
deriving DecidableEq

/-- Interpretation of the slope (app.py 78-81): strictly positive is the
expected relationship, anything else anomalous. -/
def slopeReading (a : ℚ) : SlopeReading :=
  if 0 < a then .expectedPositive else .anomalous

/-- Interpretation of the intercept (app.py 83-86). -/
def interceptReading (b : ℚ) : InterceptReading :=
  if |b| < 0.05 then .nearZero else .possibleSystematicError

open Classical in
/-- Interpretation of the correlation coefficient (app.py 88-93). -/
noncomputable def corrReading (r : ℝ) : CorrReading :=
  if r > 0.995 then .excellent else if r > 0.98 then .acceptable else .poor

/-- A calibration table used to instantiate the universally quantified
theorems: three rows, all parsing, concentrations 1, 2, 3 with
absorbances equal to them. -/
def stdDemo : List RawStd := [(some 1, some 1), (some 2, some 2), (some 3, some 3)]

deriving instance DecidableEq for Except

/-! Helper lemmas shared by the claim theorems. -/

lemma predictConc_nonneg (cal : CalibrationResult) (A : ℚ) : 0 ≤ predictConc cal A :=
  le_max_right _ _

lemma concValues_nonneg (cal : CalibrationResult) (entries : List (Option ℚ)) :
    ∀ c ∈ concValues cal entries, 0 ≤ c := by
  intro c hc
  obtain ⟨e, _, rfl⟩ := List.mem_map.mp hc
  exact predictConc_nonneg _ _

lemma avgConc_zero_all_zero (cal : CalibrationResult) (entries : List (Option ℚ))
    (h : avgConc cal entries = 0) : ∀ c ∈ concValues cal entries, c = 0 := by
  intro c hc
  have hlen : (concValues cal entries).length ≠ 0 := by
    intro h0
    rw [List.length_eq_zero] at h0
    rw [h0] at hc
    simp at hc
  have hsum : (concValues cal entries).sum = 0 := by
    unfold avgConc listMean at h
    rcases div_eq_zero_iff.mp h with hs | hl
    · exact hs
    · exact absurd (by exact_mod_cast hl) hlen
  exact List.all_zero_of_le_zero_le_of_sum_eq_zero (concValues_nonneg cal entries) hsum hc

lemma fit_ok_iff (entries : List RawStd) (numStd : ℕ) (res : CalibrationResult) :
    fit entries numStd = .ok res ↔
      numStd ≤ (parsedPairs entries).length ∧
      2 ≤ ((parsedPairs entries).map Prod.fst).dedup.length ∧
      1 / 1000000 ≤ |slopeOf (parsedPairs entries)| ∧
      res = ⟨slopeOf (parsedPairs entries), interceptOf (parsedPairs entries),
        rSqOf (parsedPairs entries)⟩ := by
  unfold fit
  dsimp only
  split_ifs with h1 h2 h3
  · exact iff_of_false (by simp) (by rintro ⟨h, -⟩; omega)
  · exact iff_of_false (by simp) (by rintro ⟨-, h, -⟩; omega)
  · exact iff_of_false (by simp) (by rintro ⟨-, -, h, -⟩; linarith)
  · constructor
    · intro h
      refine ⟨by omega, by omega, by linarith, ?_⟩
      exact (Except.ok.injEq _ _).mp h.symm
    · rintro ⟨-, -, -, rfl⟩
      rfl

lemma fit_ok_dest {entries : List RawStd} {numStd : ℕ} {res : CalibrationResult}
    (h : fit entries numStd = .ok res) :
    res.slope = slopeOf (parsedPairs entries) ∧
    res.intercept = interceptOf (parsedPairs entries) ∧
    res.rSquared = rSqOf (parsedPairs entries) ∧
    1 / 1000000 ≤ |res.slope| ∧
    2 ≤ ((parsedPairs entries).map Prod.fst).dedup.length ∧
    numStd ≤ (parsedPairs entries).length := by
  obtain ⟨hn, hd, hs, rfl⟩ := (fit_ok_iff entries numStd res).mp h
  exact ⟨rfl, rfl, rfl, hs, hd, hn⟩

lemma fit_ok_slope_ne_zero {entries : List RawStd} {numStd : ℕ} {res : CalibrationResult}
    (h : fit entries numStd = .ok res) : res.slope ≠ 0 := by
  obtain ⟨-, -, -, hs, -⟩ := fit_ok_dest h
  intro h0
  rw [h0, abs_zero] at hs
  linarith

lemma two_distinct_of_dedup {xs : List ℚ} (h2 : 2 ≤ xs.dedup.length) :
    ∃ a b, a ≠ b ∧ a ∈ xs ∧ b ∈ xs := by
  rcases hd : xs.dedup with - | ⟨a, rest⟩
  · rw [hd] at h2; simp at h2
  rcases hr : rest with - | ⟨b, rest2⟩
  · rw [hd, hr] at h2; simp at h2
  have hnd := xs.nodup_dedup
  rw [hd, hr] at hnd
  have hab : a ≠ b := by
    intro hh
    exact (List.nodup_cons.mp hnd).1 (hh ▸ List.mem_cons_self b rest2)
  refine ⟨a, b, hab, ?_, ?_⟩
  · exact List.mem_dedup.mp (by rw [hd]; exact List.mem_cons_self a rest)
  · exact List.mem_dedup.mp (by rw [hd, hr]; exact List.mem_cons_of_mem a (List.mem_cons_self b rest2))

lemma ssxm_pos {ps : List (ℚ × ℚ)} (h2 : 2 ≤ ((ps.map Prod.fst).dedup).length) :
    0 < ssxm ps := by
  obtain ⟨a, b, hab, ha, hb⟩ := two_distinct_of_dedup h2
  obtain ⟨c, hc, hne⟩ : ∃ c ∈ ps.map Prod.fst, c ≠ xbar ps := by
    by_cases hax : a = xbar ps
    · exact ⟨b, hb, fun hh => hab (by rw [hax, hh])⟩
    · exact ⟨a, ha, hax⟩
  have hcsub : c - xbar ps ≠ 0 := sub_ne_zero.mpr hne
  have hterm : (0 : ℚ) < (c - xbar ps) ^ 2 := by positivity
  have hmem : (c - xbar ps) ^ 2 ∈ ps.map fun p => (p.1 - xbar ps) ^ 2 := by
    obtain ⟨p, hp, rfl⟩ := List.mem_map.mp hc
    exact List.mem_map.mpr ⟨p, hp, rfl⟩
  have hsum : (0 : ℚ) < (ps.map fun p => (p.1 - xbar ps) ^ 2).sum := by
    refine lt_of_lt_of_le hterm (List.single_le_sum ?_ _ hmem)
    intro x hx
    obtain ⟨p, -, rfl⟩ := List.mem_map.mp hx
    positivity
  have hne' : ps ≠ [] := by
    intro hnil
    rw [hnil] at hc
    simp at hc
  have hlen : (0 : ℚ) < ps.length := by
    exact_mod_cast List.length_pos.mpr hne'
  exact div_pos hsum hlen

lemma sum_sq_nonneg_pairs (f : ℚ × ℚ → ℚ) (l : List (ℚ × ℚ)) :
    0 ≤ (l.map fun p => f p ^ 2).sum := by
  refine List.sum_nonneg ?_
  intro x hx
  obtain ⟨p, -, rfl⟩ := List.mem_map.mp hx
  positivity

lemma ssym_nonneg (ps : List (ℚ × ℚ)) : 0 ≤ ssym ps :=
  div_nonneg (sum_sq_nonneg_pairs _ _) (Nat.cast_nonneg _)

lemma sum_sq_expand (t s : ℚ) (l : List (ℚ × ℚ)) :
    (l.map fun p => (t * p.2 - s * p.1) ^ 2).sum =
      t ^ 2 * (l.map fun p => p.2 ^ 2).sum - 2 * t * s * (l.map fun p => p.1 * p.2).sum +
        s ^ 2 * (l.map fun p => p.1 ^ 2).sum := by
  induction l with
  | nil => simp
  | cons hd tl ih =>
    simp only [List.map_cons, List.sum_cons, ih]
    ring

lemma listCauchySchwarz (l : List (ℚ × ℚ)) :
    ((l.map fun p => p.1 * p.2).sum) ^ 2 ≤
      ((l.map fun p => p.1 ^ 2).sum) * ((l.map fun p => p.2 ^ 2).sum) := by
  induction l with
  | nil => simp
  | cons hd tl ih =>
    have hcross : 2 * hd.1 * hd.2 * (tl.map fun p => p.1 * p.2).sum ≤
        hd.1 ^ 2 * (tl.map fun p => p.2 ^ 2).sum +
          hd.2 ^ 2 * (tl.map fun p => p.1 ^ 2).sum := by
      have h0 : 0 ≤ (tl.map fun p => (hd.1 * p.2 - hd.2 * p.1) ^ 2).sum :=
        sum_sq_nonneg_pairs _ _
      rw [sum_sq_expand] at h0
      linarith
    simp only [List.map_cons, List.sum_cons]
    nlinarith [ih, hcross]

lemma cov_sq_le (ps : List (ℚ × ℚ)) : ssxym ps ^ 2 ≤ ssxm ps * ssym ps := by
  have key := listCauchySchwarz (ps.map fun p => (p.1 - xbar ps, p.2 - ybar ps))
  simp only [List.map_map, Function.comp] at key
  unfold ssxym ssxm ssym
  rcases Nat.eq_zero_or_pos ps.length with hn | hn
  · rw [hn]
    norm_num
  · have hc : (0 : ℚ) < (ps.length : ℚ) ^ 2 := by positivity
    rw [div_pow, div_mul_div_comm, ← sq]
    exact (div_le_div_iff_of_pos_right hc).mpr key

lemma correlation_sq {ps : List (ℚ × ℚ)} (hx : 0 < ssxm ps) :
    correlation ps ^ 2 = (rSqOf ps : ℝ) := by
  unfold correlation rSqOf
  rcases eq_or_lt_of_le (ssym_nonneg ps) with hy | hy
  · rw [if_pos (Or.inr hy.symm), if_pos (Or.inr hy.symm)]
    norm_num
  · have hcond : ¬(ssxm ps = 0 ∨ ssym ps = 0) := by
      push_neg
      exact ⟨ne_of_gt hx, ne_of_gt hy⟩
    rw [if_neg hcond, if_neg hcond]
    have hprod : (0 : ℝ) < (ssxm ps : ℝ) * (ssym ps : ℝ) := by
      exact_mod_cast mul_pos hx hy
    have hsqrt : 0 < Real.sqrt ((ssxm ps : ℝ) * (ssym ps : ℝ)) := Real.sqrt_pos.mpr hprod
    have hcs : ((ssxym ps : ℝ)) ^ 2 ≤ (ssxm ps : ℝ) * (ssym ps : ℝ) := by
      exact_mod_cast cov_sq_le ps
    have habs : |(ssxym ps : ℝ) / Real.sqrt ((ssxm ps : ℝ) * (ssym ps : ℝ))| ≤ 1 := by
      rw [abs_div, abs_of_pos hsqrt]
      exact div_le_one_of_le₀ (Real.abs_le_sqrt hcs) hsqrt.le
    obtain ⟨hlo, hhi⟩ := abs_le.mp habs
    rw [max_eq_right hlo, min_eq_right hhi, div_pow, Real.sq_sqrt hprod.le]
    push_cast
    ring

lemma horwitzMarkers_cons (c : ℚ) (cs : List ℚ) :
    horwitzMarkers (c :: cs) =
      (if 0 < round3 c / 1000000 then some (cvHorwitz (round3 c / 1000000)) else none) ::
        horwitzMarkers cs := rfl

lemma horwitzValues_cons_pos {c : ℚ} (cs : List ℚ) (hc : 0 < round3 c / 1000000) :
    horwitzValues (c :: cs) = cvHorwitz (round3 c / 1000000) :: horwitzValues cs := by
  unfold horwitzValues
  rw [List.filter_cons, if_pos (by simpa using hc), List.map_cons]

lemma horwitzValues_cons_neg {c : ℚ} (cs : List ℚ) (hc : ¬0 < round3 c / 1000000) :
    horwitzValues (c :: cs) = horwitzValues cs := by
  unfold horwitzValues
  rw [List.filter_cons, if_neg (by simpa using hc)]

lemma horwitz_values_eq (concs : List ℚ) :
    horwitzValues concs = (horwitzMarkers concs).filterMap id := by
  induction concs with
  | nil => simp [horwitzValues, horwitzMarkers]
  | cons c cs ih =>
    by_cases hc : 0 < round3 c / 1000000
    · rw [horwitzValues_cons_pos cs hc, horwitzMarkers_cons, if_pos hc]
      exact congrArg (List.cons _) ih
    · rw [horwitzValues_cons_neg cs hc, horwitzMarkers_cons, if_neg hc]
      exact ih

/-- Demo calibration fit: the three standard rows of stdDemo all parse,
have three distinct concentrations, and produce slope 1, intercept 0 and
r_squared 1. -/
lemma fit_stdDemo : fit stdDemo 3 = .ok ⟨1, 0, 1⟩ := by
  rw [fit]
  rw [show parsedPairs stdDemo = [(1, 1), (2, 2), (3, 3)] by simp [parsedPairs, stdDemo]]
  rw [show List.dedup (List.map Prod.fst [((1 : ℚ), (1 : ℚ)), (2, 2), (3, 3)]) = [1, 2, 3] by
    rw [show List.map Prod.fst [((1 : ℚ), (1 : ℚ)), (2, 2), (3, 3)] = [1, 2, 3] by simp]
    exact List.dedup_eq_self.mpr (by norm_num)]
  norm_num [slopeOf, interceptOf, rSqOf, ssxym, ssxm, ssym, xbar, ybar, listMean]

lemma div_million_pos_iff (x : ℚ) : 0 < x / 1000000 ↔ 0 < x := by
  rw [lt_div_iff₀ (by norm_num : (0 : ℚ) < 1000000)]
  norm_num

/-! Claim theorems. -/

/-- Claim C1, counterexample to the claim as stated: with calibration
slope 1 and intercept -1, the sample list [some 2, none] has its
unparsable second entry reported as the numeric concentration
max(0, (0.0 - (-1)) / 1) = 1, not as an unset marker, and the aggregate
mean is 2, computed over both rows, instead of the defined-only mean 3
the claim requires. -/
theorem claim_C1_counterexample :
    concValues ⟨1, -1, 1⟩ [some 2, none] = [3, 1] ∧
    avgConc ⟨1, -1, 1⟩ [some 2, none] = 2 ∧
    specMeanDefined ⟨1, -1, 1⟩ [some 2, none] = 3 ∧
    (2 : ℚ) ≠ 3 := by
  refine ⟨?_, ?_, ?_, by norm_num⟩ <;>
    norm_num [concValues, predictConc, parseOrZero, avgConc, listMean,
      specMeanDefined, specConcValues, List.filterMap_cons]

/-- Claim C1 (amended): for a sample entry that fails to parse, the
evaluator substitutes absorbance 0.0 and reports the numeric
concentration predictConc cal 0 in that position, and the aggregate mean
is the sum of all per-sample concentrations, parsed or not, divided by
the total number of samples. -/
theorem claim_C1 (cal : CalibrationResult) (entries : List (Option ℚ)) (i : ℕ)
    (h : entries[i]? = some none) :
    (concValues cal entries)[i]? = some (predictConc cal 0) ∧
    avgConc cal entries = (concValues cal entries).sum / entries.length := by
  constructor
  · rw [concValues, List.getElem?_map, h]
    rfl
  · rw [avgConc, listMean, concValues, List.length_map]

/-- Witness for claim_C1 at the concrete counterexample input. -/
theorem claim_C1_witness :
    (concValues ⟨1, -1, 1⟩ [some 2, none])[1]? = some (predictConc ⟨1, -1, 1⟩ 0) ∧
    avgConc ⟨1, -1, 1⟩ [some 2, none] =
      (concValues ⟨1, -1, 1⟩ [some 2, none]).sum /
        ([some 2, none] : List (Option ℚ)).length :=
  claim_C1 ⟨1, -1, 1⟩ [some 2, none] 1 rfl

/-- Claim C2, counterexample to the claim as stated: on a sample set
whose mean concentration is exactly 0, the RPD computation does not fail
with a DivideByZero error; each RPD silently evaluates to the IEEE nan
produced by the numpy float64 division 0.0 / 0.0, while the spec-modelled
computation is the required error. -/
theorem claim_C2_counterexample :
    avgConc ⟨1, 0, 1⟩ [some 0, some 0] = 0 ∧
    rpdValues ⟨1, 0, 1⟩ [some 0, some 0] = [.ok .nan, .ok .nan] ∧
    specRpd 0 0 = .error .zeroDivisionError := by
  norm_num [avgConc, concValues, predictConc, parseOrZero, listMean, rpdValues,
    rpdOf, npDiv, npScale, specRpd]

/-- Claim C2 (amended): when the mean concentration is exactly 0 every
per-sample RPD evaluates, without raising, to the IEEE nan of the numpy
float64 division 0.0 / 0.0 (all concentrations are then 0, being clamped
nonnegative); for any nonzero mean every RPD is the finite quotient
abs(conc - mean) / mean * 100. -/
theorem claim_C2 (cal : CalibrationResult) (entries : List (Option ℚ)) :
    (avgConc cal entries = 0 → ∀ r ∈ rpdValues cal entries, r = .ok .nan) ∧
    (avgConc cal entries ≠ 0 → rpdValues cal entries = (concValues cal entries).map
      fun c => .ok (.fin (|c - avgConc cal entries| / avgConc cal entries * 100))) := by
  constructor
  · intro h0 r hr
    obtain ⟨c, hc, rfl⟩ := List.mem_map.mp hr
    have hcz : c = 0 := avgConc_zero_all_zero cal entries h0 c hc
    rw [rpdOf, hcz, h0]
    norm_num [npDiv, npScale]
  · intro hne
    unfold rpdValues
    refine List.map_congr_left ?_
    intro c hc
    simp [rpdOf, npDiv, npScale, hne]

/-- Witness for claim_C2: a concrete evaluation with nonzero mean. -/
theorem claim_C2_witness :
    rpdValues ⟨1, 0, 1⟩ [some 1, some 3] = (concValues ⟨1, 0, 1⟩ [some 1, some 3]).map
      fun c => .ok (.fin (|c - avgConc ⟨1, 0, 1⟩ [some 1, some 3]| /
        avgConc ⟨1, 0, 1⟩ [some 1, some 3] * 100)) :=
  (claim_C2 ⟨1, 0, 1⟩ [some 1, some 3]).2 (by
    norm_num [avgConc, concValues, predictConc, parseOrZero, listMean])

/-- Claim C3, counterexample to the claim as stated: a sample whose
predicted concentration is 1/2500 = 0.0004 ppm is strictly positive, yet
its Horwitz CV is the undefined marker and the aggregate mean is absent,
because the code reads the concentration back from its 3-decimal
rendering 0.000 before testing positivity. -/
theorem claim_C3_counterexample :
    0 < predictConc ⟨1, 0, 1⟩ (1 / 2500) ∧
    horwitzMarkers [predictConc ⟨1, 0, 1⟩ (1 / 2500)] = [none] ∧
    avgCvHorwitz [predictConc ⟨1, 0, 1⟩ (1 / 2500)] = none := by
  have hpc : predictConc ⟨1, 0, 1⟩ (1 / 2500) = 1 / 2500 := by
    norm_num [predictConc]
  have hr3 : round3 (1 / 2500) = 0 := by
    norm_num [round3, roundHalfEven, round_eq]
  have hcneg : ¬(0 : ℚ) < round3 (1 / 2500) / 1000000 := by
    rw [hr3]
    norm_num
  have hv : horwitzValues [(1 / 2500 : ℚ)] = [] := by
    rw [horwitzValues_cons_neg [] hcneg]
    rfl
  rw [hpc]
  refine ⟨by norm_num, ?_, ?_⟩
  · rw [horwitzMarkers_cons, if_neg hcneg]
    rfl
  · rw [avgCvHorwitz, hv]
    rfl

/-- Claim C3 (amended): a SampleResult carries a defined Horwitz CV iff
its concentration rounded to three decimal places (the rendered value
the code re-parses) is strictly positive; the undefined rows are exactly
the ones excluded from the aggregate (horwitzValues is the defined
entries of the marker column in order), and the mean Horwitz CV is
present iff some sample qualifies, in which case it is the arithmetic
mean of the defined CVs. -/
theorem claim_C3 (concs : List ℚ) (i : ℕ) (c : ℚ) (h : concs[i]? = some c) :
    ((∃ v, (horwitzMarkers concs)[i]? = some (some v)) ↔ 0 < round3 c) ∧
    horwitzValues concs = (horwitzMarkers concs).filterMap id ∧
    (avgCvHorwitz concs = none ↔ horwitzValues concs = []) ∧
    (horwitzValues concs ≠ [] → avgCvHorwitz concs =
      some ((horwitzValues concs).sum / (horwitzValues concs).length)) := by
  refine ⟨?_, horwitz_values_eq concs, ?_, ?_⟩
  · rw [horwitzMarkers, List.getElem?_map, h, ← div_million_pos_iff (round3 c)]
    simp only [Option.map_some']
    by_cases hc : 0 < round3 c / 1000000
    · rw [if_pos hc]
      exact iff_of_true ⟨_, rfl⟩ hc
    · rw [if_neg hc]
      refine iff_of_false ?_ hc
      rintro ⟨v, hv⟩
      simp at hv
  · unfold avgCvHorwitz
    by_cases he : (horwitzValues concs).isEmpty
    · rw [if_pos he]
      exact iff_of_true rfl (List.isEmpty_iff.mp he)
    · rw [if_neg he]
      exact iff_of_false (by simp) fun hh => he (by rw [hh]; rfl)
  · intro hne
    unfold avgCvHorwitz
    rw [if_neg fun he => hne (List.isEmpty_iff.mp he)]

/-- Witness for claim_C3 at a concrete sample list with one defined CV. -/
theorem claim_C3_witness :
    ((∃ v, (horwitzMarkers [1])[0]? = some (some v)) ↔ 0 < round3 1) ∧
    horwitzValues [1] = (horwitzMarkers [1]).filterMap id ∧
    (avgCvHorwitz [1] = none ↔ horwitzValues [1] = []) ∧
    (horwitzValues [1] ≠ [] → avgCvHorwitz [1] =
      some ((horwitzValues [1]).sum / (horwitzValues [1]).length)) :=
  claim_C3 [1] 0 1 rfl

/-- Claim C4: the reported rsd_percent is the square root of the
arithmetic mean of squared deviations of each concentration from the
mean concentration, and it differs from the conventional
100 * stddev / mean formula (shown at the concrete concentrations
[1, 3], where the code reports 1 but the conventional formula gives 50). -/
theorem claim_C4 :
    (∀ (cal : CalibrationResult) (entries : List (Option ℚ)),
      rsdOf cal entries = Real.sqrt (meanSqDev (concValues cal entries))) ∧
    rsdOf ⟨1, 0, 1⟩ [some 1, some 3] ≠
      conventionalRsd (concValues ⟨1, 0, 1⟩ [some 1, some 3]) := by
  have hkey : ∀ (cal : CalibrationResult) (entries : List (Option ℚ)),
      rsdSqOf cal entries = meanSqDev (concValues cal entries) := by
    intro cal entries
    unfold rsdSqOf selisihSq meanSqDev avgConc
    congr 1
    refine List.map_congr_left ?_
    intro c hc
    rw [abs_mul_abs_self]
    ring
  constructor
  · intro cal entries
    unfold rsdOf
    rw [hkey]
  · have hconc : concValues ⟨1, 0, 1⟩ [some 1, some 3] = [1, 3] := by
      norm_num [concValues, predictConc, parseOrZero]
    have h1 : rsdSqOf ⟨1, 0, 1⟩ [some 1, some 3] = 1 := by
      norm_num [rsdSqOf, selisihSq, avgConc, concValues, predictConc, parseOrZero, listMean]
    have h2 : meanSqDev [(1 : ℚ), 3] = 1 := by
      norm_num [meanSqDev, listMean]
    have h3 : listMean [(1 : ℚ), 3] = 2 := by
      norm_num [listMean]
    rw [rsdOf, h1, hconc, conventionalRsd, h2, h3]
    rw [show ((1 : ℚ) : ℝ) = 1 by norm_num, Real.sqrt_one]
    norm_num

lemma fit_insufficient_iff (entries : List RawStd) (numStd : ℕ) :
    fit entries numStd = .error .insufficientData ↔
      (parsedPairs entries).length < numStd := by
  unfold fit
  dsimp only
  split_ifs with h1 h2 h3 <;> simp_all

lemma fit_degenerate_iff (entries : List RawStd) (numStd : ℕ) :
    fit entries numStd = .error .degenerateConcentrations ↔
      numStd ≤ (parsedPairs entries).length ∧
        ((parsedPairs entries).map Prod.fst).dedup.length < 2 := by
  unfold fit
  dsimp only
  split_ifs with h1 h2 h3 <;> simp_all

lemma fit_slope_small_iff (entries : List RawStd) (numStd : ℕ) :
    fit entries numStd = .error .slopeTooSmall ↔
      numStd ≤ (parsedPairs entries).length ∧
        2 ≤ ((parsedPairs entries).map Prod.fst).dedup.length ∧
        |slopeOf (parsedPairs entries)| < 1 / 1000000 := by
  unfold fit
  dsimp only
  split_ifs with h1 h2 h3 <;> simp_all

/-- Claim C5: the fitter runs its checks in order, each an exclusive
terminal failure: InsufficientData exactly when fewer than numStd rows
parse; otherwise DegenerateConcentrations exactly when fewer than 2
distinct concentration values remain; otherwise SlopeTooSmall exactly
when the computed least-squares slope has absolute value below 1e-6;
otherwise success with the regression slope, intercept and r_squared. -/
theorem claim_C5 (entries : List RawStd) (numStd : ℕ) :
    (fit entries numStd = .error .insufficientData ↔
      (parsedPairs entries).length < numStd) ∧
    (fit entries numStd = .error .degenerateConcentrations ↔
      numStd ≤ (parsedPairs entries).length ∧
        ((parsedPairs entries).map Prod.fst).dedup.length < 2) ∧
    (fit entries numStd = .error .slopeTooSmall ↔
      numStd ≤ (parsedPairs entries).length ∧
        2 ≤ ((parsedPairs entries).map Prod.fst).dedup.length ∧
        |slopeOf (parsedPairs entries)| < 1 / 1000000) ∧
    (fit entries numStd = .ok ⟨slopeOf (parsedPairs entries),
        interceptOf (parsedPairs entries), rSqOf (parsedPairs entries)⟩ ↔
      numStd ≤ (parsedPairs entries).length ∧
        2 ≤ ((parsedPairs entries).map Prod.fst).dedup.length ∧
        1 / 1000000 ≤ |slopeOf (parsedPairs entries)|) := by
  refine ⟨fit_insufficient_iff entries numStd, fit_degenerate_iff entries numStd,
    fit_slope_small_iff entries numStd, ?_⟩
  rw [fit_ok_iff]
  simp

/-- Claim C6: after a successful fit, every predicted concentration is
max(0, (A - b) / a), and in particular is never negative, for every
absorbance A including values below the intercept. -/
theorem claim_C6 (entries : List RawStd) (numStd : ℕ) (res : CalibrationResult)
    (h : fit entries numStd = .ok res) (A : ℚ) :
    predictConc res A = max 0 ((A - res.intercept) / res.slope) ∧
    0 ≤ predictConc res A := by
  have hs := fit_ok_slope_ne_zero h
  constructor
  · rw [predictConc, if_pos hs, max_comm]
  · exact predictConc_nonneg res A

/-- Witness for claim_C6 on the demo calibration, at an absorbance below
the intercept. -/
theorem claim_C6_witness :
    predictConc ⟨1, 0, 1⟩ (-7 / 2) =
      max 0 (((-7 / 2 : ℚ) - (⟨1, 0, 1⟩ : CalibrationResult).intercept) /
        (⟨1, 0, 1⟩ : CalibrationResult).slope) ∧
    0 ≤ predictConc ⟨1, 0, 1⟩ (-7 / 2) :=
  claim_C6 stdDemo 3 ⟨1, 0, 1⟩ fit_stdDemo (-7 / 2)

/-- Claim C7: the qualitative interpretation is a pure function of the
regression output with exactly the fixed thresholds of app.py 76-93:
slope strictly positive vs anomalous, absolute intercept below 0.05 vs
possible systematic error, and correlation tiers at 0.995 and 0.98. -/
theorem claim_C7 (a b : ℚ) (r : ℝ) :
    (slopeReading a = .expectedPositive ↔ 0 < a) ∧
    (slopeReading a = .anomalous ↔ a ≤ 0) ∧
    (interceptReading b = .nearZero ↔ |b| < 0.05) ∧
    (interceptReading b = .possibleSystematicError ↔ 0.05 ≤ |b|) ∧
    (corrReading r = .excellent ↔ 0.995 < r) ∧
    (corrReading r = .acceptable ↔ 0.98 < r ∧ r ≤ 0.995) ∧
    (corrReading r = .poor ↔ r ≤ 0.98) := by
  unfold slopeReading interceptReading corrReading
  refine ⟨?_, ?_, ?_, ?_, ?_, ?_, ?_⟩ <;> split_ifs with h1 h2 <;>
    simp_all <;> linarith

/-- Claim C8: whenever the fit succeeds, the returned slope has the same
sign as the covariance (ssxym, the biased covariance of np.cov) between
the concentration and absorbance columns, since slope = ssxym / ssxm
with ssxm strictly positive once two distinct concentrations exist. -/
theorem claim_C8 (entries : List RawStd) (numStd : ℕ) (res : CalibrationResult)
    (h : fit entries numStd = .ok res) :
    (0 < res.slope ↔ 0 < ssxym (parsedPairs entries)) ∧
    (res.slope = 0 ↔ ssxym (parsedPairs entries) = 0) ∧
    (res.slope < 0 ↔ ssxym (parsedPairs entries) < 0) := by
  obtain ⟨hsl, -, -, -, hd, -⟩ := fit_ok_dest h
  have hxx : 0 < ssxm (parsedPairs entries) := ssxm_pos hd
  rw [hsl]
  unfold slopeOf
  refine ⟨?_, ?_, ?_⟩
  · constructor
    · intro hq
      rcases div_pos_iff.mp hq with ⟨ha, -⟩ | ⟨-, hb⟩
      · exact ha
      · linarith
    · intro hq
      exact div_pos hq hxx
  · rw [div_eq_zero_iff]
    constructor
    · rintro (ha | hb)
      · exact ha
      · linarith
    · exact Or.inl
  · constructor
    · intro hq
      rcases div_neg_iff.mp hq with ⟨ha, hb⟩ | ⟨ha, hb⟩
      · linarith
      · exact ha
    · intro hq
      exact div_neg_of_neg_of_pos hq hxx

/-- Witness for claim_C8 on the demo calibration. -/
theorem claim_C8_witness :
    (0 < (⟨1, 0, 1⟩ : CalibrationResult).slope ↔ 0 < ssxym (parsedPairs stdDemo)) ∧
    ((⟨1, 0, 1⟩ : CalibrationResult).slope = 0 ↔ ssxym (parsedPairs stdDemo) = 0) ∧
    ((⟨1, 0, 1⟩ : CalibrationResult).slope < 0 ↔ ssxym (parsedPairs stdDemo) < 0) :=
  claim_C8 stdDemo 3 ⟨1, 0, 1⟩ fit_stdDemo

/-- Claim C9: for every CalibrationResult produced by fit, the stored
r_squared is exactly the square of the Pearson correlation (including
the guard and clip branches that scipy applies to r). -/
theorem claim_C9 (entries : List RawStd) (numStd : ℕ) (res : CalibrationResult)
    (h : fit entries numStd = .ok res) :
    correlation (parsedPairs entries) ^ 2 = (res.rSquared : ℝ) := by
  obtain ⟨-, -, hr, -, hd, -⟩ := fit_ok_dest h
  rw [hr]
  exact correlation_sq (ssxm_pos hd)

/-- Witness for claim_C9 on the demo calibration. -/
theorem claim_C9_witness :
    correlation (parsedPairs stdDemo) ^ 2 =
      (((⟨1, 0, 1⟩ : CalibrationResult).rSquared : ℚ) : ℝ) :=
  claim_C9 stdDemo 3 ⟨1, 0, 1⟩ fit_stdDemo

/-- Claim C10: a successful fit guarantees the absolute slope is at
least 1e-6, hence nonzero, so the evaluator always takes the genuine
division branch (A - b) / a; the a == 0 fallback returning 0 is
unreachable for any calibration that passed fitting. -/
theorem claim_C10 (entries : List RawStd) (numStd : ℕ) (res : CalibrationResult)
    (h : fit entries numStd = .ok res) :
    1 / 1000000 ≤ |res.slope| ∧ res.slope ≠ 0 ∧
    ∀ A : ℚ, predictConc res A = max ((A - res.intercept) / res.slope) 0 := by
  obtain ⟨-, -, -, habs, -⟩ := fit_ok_dest h
  exact ⟨habs, fit_ok_slope_ne_zero h, fun A => by
    rw [predictConc, if_pos (fit_ok_slope_ne_zero h)]⟩

/-- Witness for claim_C10 on the demo calibration. -/
theorem claim_C10_witness :
    1 / 1000000 ≤ |(⟨1, 0, 1⟩ : CalibrationResult).slope| ∧
    (⟨1, 0, 1⟩ : CalibrationResult).slope ≠ 0 ∧
    ∀ A : ℚ, predictConc ⟨1, 0, 1⟩ A =
      max ((A - (⟨1, 0, 1⟩ : CalibrationResult).intercept) /
        (⟨1, 0, 1⟩ : CalibrationResult).slope) 0 :=
  claim_C10 stdDemo 3 ⟨1, 0, 1⟩ fit_stdDemo

end Kalku
